import Mathlib

/-!
Verification development for the Alraedah internal-hub batch pipeline
(`src/a.py`, `src/app.py`, `src/app2.py`): field normalization, batch
duplicate/invalid classification, archive-root sanitization and the vCard
serializer.  Python strings are modelled as `List Char`; pandas column
operations are modelled as list transformations over the row list, and a
Python call that raises is modelled in `Except`.
-/

namespace AlraedahSuite

/-- One character of the class `[0-9]`; `re.sub(r"\D", "", s)` keeps exactly
these characters. -/
def isDigitChar (c : Char) : Bool := decide ('0' ≤ c ∧ c ≤ '9')

/-- `re.sub(r"\D", "", s)`: delete every non-digit character of the string. -/
def stripNonDigits (l : List Char) : List Char := l.filter isDigitChar

/-- Python `s.startswith(p)`. -/
def pyStartsWith (l p : List Char) : Prop := l.take p.length = p

instance (l p : List Char) : Decidable (pyStartsWith l p) :=
  inferInstanceAs (Decidable (l.take p.length = p))

/-- The digit-stripped input after the first rewrite of
`normalize_saudi_mobile` (src/a.py line 137): a cleaned string `00966…` of
length 14 loses its first two characters. -/
def cleanAfter1 (mobile : List Char) : List Char :=
  let c0 := stripNonDigits mobile
  if pyStartsWith c0 ['0', '0', '9', '6', '6'] ∧ c0.length = 14 then c0.drop 2 else c0

/-- `normalize_saudi_mobile` of src/a.py lines 134-143 (src/app.py lines
124-133 is identical).  An empty argument is falsy in Python, so it returns
`("", False)` at once; otherwise the rule chain runs on the digit-stripped
string and the final fallback returns the raw argument with `False`. -/
def normalize_saudi_mobile (mobile : List Char) : List Char × Bool :=
  if mobile = [] then ([], false)
  else
    let clean := cleanAfter1 mobile
    if pyStartsWith clean ['9', '6', '6', '5'] ∧ clean.length = 12 then
      ('+' :: clean, true)
    else if pyStartsWith clean ['0', '5'] ∧ clean.length = 10 then
      ('+' :: '9' :: '6' :: '6' :: clean.drop 1, true)
    else if pyStartsWith clean ['5'] ∧ clean.length = 9 then
      ('+' :: '9' :: '6' :: '6' :: clean, true)
    else if pyStartsWith clean ['9', '6', '6'] ∧ clean.length = 12 then
      ('+' :: clean, true)
    else if pyStartsWith clean ['+', '9', '6', '6'] ∧ clean.length = 13 then
      (clean, true)
    else (mobile, false)

/-- Whitespace as stripped by Python `str.strip()` (the ASCII cases). -/
def pyWhitespace (c : Char) : Bool :=
  c == ' ' || c == '\t' || c == '\n' || c == '\r' || c == '\x0B' || c == '\x0C'

/-- Python `s.strip()`: drop whitespace from both ends. -/
def pyStrip (l : List Char) : List Char :=
  ((l.dropWhile pyWhitespace).reverse.dropWhile pyWhitespace).reverse

/-- Python `s.lower()` (ASCII case folding). -/
def pyLower (l : List Char) : List Char := l.map Char.toLower

/-- `normalize_email` of src/a.py lines 145-148 (src/app.py lines 135-138 is
identical): strip, lowercase, then `"@" in e and e.count("@") == 1`. -/
def normalize_email (email : List Char) : List Char × Bool :=
  if email = [] then ([], false)
  else
    let e := pyLower (pyStrip email)
    (e, decide ('@' ∈ e ∧ e.count '@' = 1))

/-- One spreadsheet row after the Record Mapper, with the columns the batch
classifier and the per-record generation loop read.  Columns that a sheet
leaves unresolved default to the empty string. -/
structure Row where
  First_Name : List Char := []
  Last_Name : List Char := []
  Arabic_Name : List Char := []
  Department : List Char := []
  Role : List Char := []
  Company : List Char := []
  Mobile : List Char := []
  Email : List Char := []
  Website : List Char := []
  Location : List Char := []
  Notes : List Char := []
deriving DecidableEq

/-- The `Email_Normalized` column: `normalize_email` applied to each row. -/
def emailsN (rows : List Row) : List (List Char) :=
  rows.map (fun r => (normalize_email r.Email).1)

/-- The `Mobile_Normalized` column: `normalize_saudi_mobile` on each row. -/
def mobilesN (rows : List Row) : List (List Char) :=
  rows.map (fun r => (normalize_saudi_mobile r.Mobile).1)

/-- pandas `Series.duplicated(keep=False)`: mark every position whose value
occurs at least twice in the column. -/
def duplicatedKeepFalse (xs : List (List Char)) : List Bool :=
  xs.map (fun x => decide (2 ≤ xs.count x))

/-- pandas `Series.ne("")`: mark every position holding a non-empty value. -/
def neEmptyMask (xs : List (List Char)) : List Bool :=
  xs.map (fun x => !(x == []))

/-- `DataFrame` row selection by a boolean mask, `mapped[mask]`. -/
def selectMask (rows : List Row) (m : List Bool) : List Row :=
  (rows.zip m).filterMap (fun p => if p.2 then some p.1 else none)

/-- src/app.py line 593: `dup_mobile = mapped["Mobile_Normalized"].duplicated(keep=False)`. -/
def dup_mobile_app (rows : List Row) : List Bool :=
  duplicatedKeepFalse (mobilesN rows)

/-- src/app.py line 594: `dup_email = mapped["Email_Normalized"].duplicated(keep=False)`. -/
def dup_email_app (rows : List Row) : List Bool :=
  duplicatedKeepFalse (emailsN rows)

/-- src/app.py line 595: mask of `duplicates = mapped[dup_mobile | dup_email]`. -/
def dup_mask_app (rows : List Row) : List Bool :=
  List.zipWith or (dup_mobile_app rows) (dup_email_app rows)

/-- Mask of `invalids = mapped[~mapped["Email_Valid"] | ~mapped["Mobile_Valid"]]`
(src/app.py line 596; src/a.py line 617 is the same test). -/
def inv_mask (rows : List Row) : List Bool :=
  rows.map (fun r => !(normalize_email r.Email).2 || !(normalize_saudi_mobile r.Mobile).2)

/-- src/app.py line 595: the duplicate partition. -/
def duplicates_app (rows : List Row) : List Row :=
  selectMask rows (dup_mask_app rows)

/-- src/app.py line 596: the invalid partition. -/
def invalids_app (rows : List Row) : List Row :=
  selectMask rows (inv_mask rows)

/-- Mask of src/app.py line 597:
`clean_df = mapped[~mapped.index.isin(duplicates.index) & ~mapped.index.isin(invalids.index)]`
(the default RangeIndex is unique, so index membership is the row's mask bit). -/
def clean_mask_app (rows : List Row) : List Bool :=
  List.zipWith (fun d i => !d && !i) (dup_mask_app rows) (inv_mask rows)

/-- src/app.py line 597: the clean partition. -/
def clean_df_app (rows : List Row) : List Row :=
  selectMask rows (clean_mask_app rows)

/-- src/app.py lines 599-601: the summary counts. -/
def clean_count_app (rows : List Row) : Nat := (clean_df_app rows).length

def invalid_count_app (rows : List Row) : Nat := (invalids_app rows).length

def duplicate_count_app (rows : List Row) : Nat := (duplicates_app rows).length

/-- Mask of the excluded set `invalid ∪ duplicate` (row-index union). -/
def excluded_mask_app (rows : List Row) : List Bool :=
  List.zipWith or (dup_mask_app rows) (inv_mask rows)

/-- src/app.py lines 636-638: `Generate ZIP Outputs` stops with a warning and
produces no archive when `clean_count == 0`. -/
def zip_generated_app (rows : List Row) : Bool :=
  !(clean_count_app rows == 0)

/-- A Python runtime error surfaced by the src/a.py batch handler. -/
inductive PyErr where
  | typeError
deriving DecidableEq

/-- A call `series.duplicated(<kw>=False)`: pandas `Series.duplicated` has the
single keyword parameter `keep`, so a call passing any other keyword name
raises `TypeError` before the method body runs. -/
def series_duplicated (kw : String) (xs : List (List Char)) : Except PyErr (List Bool) :=
  if kw = "keep" then .ok (duplicatedKeepFalse xs) else .error .typeError

/-- `hasattr(series, 'duplicated')`: every pandas `Series` carries the
`duplicated` method, so the test is true. -/
def hasattr_series_duplicated : Bool := true

/-- src/a.py line 613:
`mapped["Email_Normalized"].duplicated(Keep=False) if hasattr(mapped["Email_Normalized"], 'duplicated') else mapped["Email_Normalized"].duplicated(keep=False)`. -/
def dup_email_expr_a (emails : List (List Char)) : Except PyErr (List Bool) :=
  if hasattr_series_duplicated then series_duplicated "Keep" emails
  else series_duplicated "keep" emails

/-- Mask of src/a.py lines 613-614 under the spelled-out `keep=False`
semantics of its fallback branch: email duplicates restricted to non-empty
normalized emails. -/
def dup_email_mask_a (rows : List Row) : List Bool :=
  List.zipWith and (duplicatedKeepFalse (emailsN rows)) (neEmptyMask (emailsN rows))

/-- src/a.py line 615:
`dup_mobile = mapped["Mobile_Normalized"].duplicated(keep=False) & mapped["Mobile_Normalized"].ne("")`. -/
def dup_mobile_mask_a (rows : List Row) : List Bool :=
  List.zipWith and (duplicatedKeepFalse (mobilesN rows)) (neEmptyMask (mobilesN rows))

/-- Mask of src/a.py line 616: `duplicates = mapped[dup_email | dup_mobile]`. -/
def dup_mask_a (rows : List Row) : List Bool :=
  List.zipWith or (dup_email_mask_a rows) (dup_mobile_mask_a rows)

/-- src/a.py line 620: `len(invalids.index.union(duplicates.index))`. -/
def excluded_count_a (rows : List Row) : Nat :=
  (List.zipWith or (dup_mask_a rows) (inv_mask rows)).count true

/-- src/a.py line 620: `clean_count = total - len(invalids.index.union(duplicates.index))`. -/
def clean_count_a (rows : List Row) : Nat :=
  rows.length - excluded_count_a rows

/-- The src/a.py batch handler from the duplicate computation (line 613) to
the summary counts (lines 619-620), with the raising call in `Except`: the
`st.info` summary of line 622 and every archive write come after this
point, so an error here precedes any summary or archive output. -/
def batch_summary_a (rows : List Row) : Except PyErr (Nat × Nat × Nat × Nat) := do
  let de0 ← dup_email_expr_a (emailsN rows)
  let de := List.zipWith and de0 (neEmptyMask (emailsN rows))
  let dm := dup_mobile_mask_a rows
  let dupMask := List.zipWith or de dm
  let dupCount := (selectMask rows dupMask).length
  let invCount := (invalids_app rows).length
  let exCount := (List.zipWith or dupMask (inv_mask rows)).count true
  pure (rows.length, rows.length - exCount, invCount, dupCount)

/-- One character of the class `[A-Za-z0-9._-]` kept by the root-name
sanitizer `re.sub(r"[^A-Za-z0-9._-]+", "_", name)`. -/
def isAllowedRootChar (c : Char) : Bool :=
  decide (('A' ≤ c ∧ c ≤ 'Z') ∨ ('a' ≤ c ∧ c ≤ 'z') ∨ ('0' ≤ c ∧ c ≤ '9') ∨
    c = '.' ∨ c = '_' ∨ c = '-')

/-- `re.sub(r"[^A-Za-z0-9._-]+", "_", name)`: each maximal run of characters
outside the class becomes one underscore (a run is continued while the next
character is also outside the class). -/
def subBadRuns : List Char → List Char
  | [] => []
  | [c] => if isAllowedRootChar c then [c] else ['_']
  | c :: d :: cs =>
    if isAllowedRootChar c then c :: subBadRuns (d :: cs)
    else if isAllowedRootChar d then '_' :: subBadRuns (d :: cs)
    else subBadRuns (d :: cs)

/-- Python `s.strip("_")`: drop underscores from both ends. -/
def stripUnderscores (l : List Char) : List Char :=
  ((l.dropWhile (fun c => c == '_')).reverse.dropWhile (fun c => c == '_')).reverse

/-- `safe_root` of src/a.py line 628 and src/app.py line 631:
`re.sub(r"[^A-Za-z0-9._-]+", "_", name).strip("_") or dflt`
(the empty string is falsy, so `or` substitutes the default). -/
def safe_root (name dflt : List Char) : List Char :=
  let s := stripUnderscores (subBadRuns name)
  if s = [] then dflt else s

/-- A scan written after the words of the spec (§4.4): keep exactly the
characters `[A-Za-z0-9._-]` and emit a single underscore for every maximal
run of any other characters, tracked by a flag saying whether the previous
character already belonged to such a run. -/
def collapseRunsAux : Bool → List Char → List Char
  | _, [] => []
  | prevBad, c :: cs =>
    if isAllowedRootChar c then c :: collapseRunsAux false cs
    else if prevBad then collapseRunsAux true cs
    else '_' :: collapseRunsAux true cs

/-- The spec-side sanitizer (§4.4): collapse disallowed runs, strip edge
underscores, fall back to the default name when nothing is left. -/
def safe_root_spec (name dflt : List Char) : List Char :=
  let s := stripUnderscores (collapseRunsAux false name)
  if s = [] then dflt else s

/-- The person record handed to the artifact generators: exactly the keys
that `vcard_from_person` of src/a.py reads with `p.get(..., "")`.  A missing
or falsy value is the empty string. -/
structure Person where
  First_Name : List Char := []
  Last_Name : List Char := []
  Company : List Char := []
  Role : List Char := []
  Mobile : List Char := []
  Email : List Char := []
  Website : List Char := []
  Location : List Char := []
  Notes : List Char := []
deriving DecidableEq

/-- `vcard_from_person` of src/a.py lines 153-174 (src/app.py lines 143-164
is identical): one f-string with literal newlines between the fields. -/
def vcard_from_person (p : Person) : List Char :=
  "BEGIN:VCARD\nVERSION:3.0\nN:".toList ++ p.Last_Name ++ ";".toList ++ p.First_Name ++
  "\nFN:".toList ++ p.First_Name ++ " ".toList ++ p.Last_Name ++
  "\nORG:".toList ++ p.Company ++
  "\nTITLE:".toList ++ p.Role ++
  "\nTEL;TYPE=CELL:".toList ++ p.Mobile ++
  "\nEMAIL:".toList ++ p.Email ++
  "\nURL:".toList ++ p.Website ++
  "\nADR;TYPE=WORK:".toList ++ p.Location ++
  "\nNOTE:".toList ++ p.Notes ++
  "\nEND:VCARD".toList

/-- The person built from a clean row by the src/app.py batch loop (lines
657-670): the raw mobile and email are replaced by their normalized forms. -/
def rowToPerson (r : Row) : Person :=
  { First_Name := r.First_Name
    Last_Name := r.Last_Name
    Company := r.Company
    Role := r.Role
    Mobile := (normalize_saudi_mobile r.Mobile).1
    Email := (normalize_email r.Email).1
    Website := r.Website
    Location := r.Location
    Notes := r.Notes }

/-- The records the src/app.py batch generation loop (line 657,
`for _, row in clean_df.iterrows()`) produces artifacts for: exactly the
clean partition, in row order. -/
def batch_persons_app (rows : List Row) : List Person :=
  (clean_df_app rows).map rowToPerson

/-- The `Person` dataclass of src/app2.py as read by its
`vcard_from_person` (lines 110-131). -/
structure Person2 where
  FirstName : List Char := []
  LastName : List Char := []
  Role : List Char := []
  Company : List Char := []
  Email : List Char := []
  Mobile : List Char := []
  Phone : List Char := []
  Website : List Char := []
  Address : List Char := []
deriving DecidableEq

/-- `Person.full_name_en` of src/app2.py line 100:
`f"{self.FirstName} {self.LastName}".strip()`. -/
def full_name_en (p : Person2) : List Char :=
  pyStrip (p.FirstName ++ " ".toList ++ p.LastName)

/-- Python `"\n".join(lines)`. -/
def joinNl : List (List Char) → List Char
  | [] => []
  | [l] => l
  | l :: l' :: ls => l ++ '\n' :: joinNl (l' :: ls)

/-- The `lines` list built by `vcard_from_person` of src/app2.py lines
110-131: the optional fields are appended only when truthy (non-empty). -/
def vcard2_lines (p : Person2) : List (List Char) :=
  ["BEGIN:VCARD".toList,
   "VERSION:3.0".toList,
   "N:".toList ++ p.LastName ++ ";".toList ++ p.FirstName ++ ";;;".toList,
   "FN:".toList ++ full_name_en p,
   "TITLE:".toList ++ p.Role,
   "ORG:".toList ++ p.Company] ++
  (if p.Email = [] then [] else ["EMAIL;TYPE=INTERNET:".toList ++ p.Email]) ++
  (if p.Mobile = [] then [] else ["TEL;TYPE=CELL:".toList ++ p.Mobile]) ++
  (if p.Phone = [] then [] else ["TEL;TYPE=WORK,VOICE:".toList ++ p.Phone]) ++
  (if p.Website = [] then [] else ["URL:".toList ++ p.Website]) ++
  (if p.Address = [] then [] else ["ADR;TYPE=WORK:;;".toList ++ p.Address ++ ";;;;".toList]) ++
  ["END:VCARD".toList]

/-- `vcard_from_person` of src/app2.py lines 110-131: `"\n".join(lines)`. -/
def vcard_from_person_app2 (p : Person2) : List Char :=
  joinNl (vcard2_lines p)

/-- Split a text into its lines at `'\n'` (Python `text.split("\n")`). -/
def splitNl : List Char → List (List Char)
  | [] => [[]]
  | c :: cs =>
    if c = '\n' then [] :: splitNl cs
    else
      match splitNl cs with
      | [] => [[c]]
      | l :: ls => (c :: l) :: ls

/-- The match conditions of spec §4.1 rules 2-5, taken after the rule-1
rewrite, each evaluated against the digit-stripped string as the spec
words them. -/
def specRules15Match (mobile : List Char) : Prop :=
  (pyStartsWith (cleanAfter1 mobile) ['9', '6', '6', '5'] ∧ (cleanAfter1 mobile).length = 12) ∨
  (pyStartsWith (cleanAfter1 mobile) ['0', '5'] ∧ (cleanAfter1 mobile).length = 10) ∨
  (pyStartsWith (cleanAfter1 mobile) ['5'] ∧ (cleanAfter1 mobile).length = 9) ∨
  (pyStartsWith (cleanAfter1 mobile) ['9', '6', '6'] ∧ (cleanAfter1 mobile).length = 12)

instance (mobile : List Char) : Decidable (specRules15Match mobile) := by
  unfold specRules15Match
  infer_instance

/-- The match condition of spec §4.1 rule 6, evaluated against the original
pre-strip string as the spec words it. -/
def specRule6Match (mobile : List Char) : Prop :=
  pyStartsWith mobile ['+', '9', '6', '6'] ∧ mobile.length = 13

instance (mobile : List Char) : Decidable (specRule6Match mobile) := by
  unfold specRule6Match
  infer_instance

/-- The output shape the spec promises for a valid mobile: `+966` followed by
nine digits, thirteen characters in all. -/
def plus966Shape (t : List Char) : Prop :=
  t.length = 13 ∧ t.take 4 = ['+', '9', '6', '6'] ∧ ∀ c ∈ t.drop 4, isDigitChar c = true

instance (t : List Char) : Decidable (plus966Shape t) := by
  unfold plus966Shape
  infer_instance

/-- Row A of the spec §8 end-to-end scenario: valid email and mobile. -/
def rowA : Row :=
  { First_Name := "Ali".toList
    Last_Name := "Hasan".toList
    Email := "a@x.com".toList
    Mobile := "0501234567".toList }

/-- Row B of the scenario: its email normalizes to row A's. -/
def rowB : Row :=
  { First_Name := "Sara".toList
    Last_Name := "Omar".toList
    Email := "A@X.com".toList
    Mobile := "0509999999".toList }

/-- Row C of the scenario: an invalid mobile. -/
def rowC : Row :=
  { First_Name := "Nora".toList
    Last_Name := "Zed".toList
    Email := "c@x.com".toList
    Mobile := "12345".toList }

/-- The 3-row batch of spec §8: A valid, B a duplicate email of A, C an
invalid mobile. -/
def scenario3 : List Row := [rowA, rowB, rowC]

/-- Two rows with distinct valid emails and empty mobiles: their only
colliding normalized value is the empty string. -/
def emptyMobileBatch : List Row :=
  [{ First_Name := "E1".toList
     Email := "x@a.com".toList
     Mobile := [] },
   { First_Name := "E2".toList
     Email := "y@a.com".toList
     Mobile := [] }]

/-- A fully populated person record for exercising the vCard serializer. -/
def vcardWitnessPerson : Person :=
  { First_Name := "Ali".toList
    Last_Name := "Hasan".toList
    Company := "Acme".toList
    Role := "Engineer".toList
    Mobile := "+966501234567".toList
    Email := "ali@acme.sa".toList
    Website := "https://acme.sa".toList
    Location := "Riyadh".toList
    Notes := "Badge 7".toList }

/-- A record whose Email is empty, for the src/app2.py serializer. -/
def app2EmptyEmailPerson : Person2 :=
  { FirstName := "Ali".toList, LastName := "Hasan".toList,
    Role := "Engineer".toList, Company := "Acme".toList,
    Mobile := "0501234567".toList }

lemma digit_of_mem_cleanAfter1 {l : List Char} {c : Char} (h : c ∈ cleanAfter1 l) :
    isDigitChar c = true := by
  simp only [cleanAfter1, stripNonDigits] at h
  split at h
  · exact (List.mem_filter.mp (List.drop_subset _ _ h)).2
  · exact (List.mem_filter.mp h).2

lemma cleanAfter1_not_plus (l : List Char) :
    ¬ pyStartsWith (cleanAfter1 l) ['+', '9', '6', '6'] := by
  intro h
  simp only [pyStartsWith, List.length_cons, List.length_nil] at h
  have hp : '+' ∈ cleanAfter1 l := by
    apply List.take_subset 4
    rw [show (0 + 1 + 1 + 1 + 1 : Nat) = 4 from rfl] at h
    rw [h]
    simp
  exact absurd (digit_of_mem_cleanAfter1 hp) (by decide)

lemma take3_of_take4 {l : List Char} {a b c d : Char} (h : l.take 4 = [a, b, c, d]) :
    l.take 3 = [a, b, c] := by
  have : (l.take 4).take 3 = l.take 3 := by
    rw [List.take_take]
    norm_num
  rw [← this, h]
  rfl

lemma normalize_mobile_cases (l : List Char) :
    ((normalize_saudi_mobile l).2 = true ↔ specRules15Match l)
    ∧ ((normalize_saudi_mobile l).2 = true →
        ∃ t, (normalize_saudi_mobile l).1 = '+' :: t ∧ (∀ c ∈ t, isDigitChar c = true)
          ∧ t.take 3 = ['9', '6', '6'] ∧ t.length = 12)
    ∧ ((normalize_saudi_mobile l).2 = false → (normalize_saudi_mobile l).1 = l) := by
  by_cases hl : l = []
  · subst hl
    exact ⟨by decide, fun h => absurd h (by decide), fun _ => by decide⟩
  · simp only [normalize_saudi_mobile, hl, if_false]
    split_ifs with h2 h3 h4 h5 h6
    · refine ⟨by simp [specRules15Match, h2], fun _ => ?_, by simp⟩
      refine ⟨cleanAfter1 l, rfl, fun c hc => digit_of_mem_cleanAfter1 hc,
        take3_of_take4 h2.1, h2.2⟩
    · refine ⟨by simp [specRules15Match, h3], fun _ => ?_, by simp⟩
      refine ⟨'9' :: '6' :: '6' :: (cleanAfter1 l).drop 1, rfl, ?_, rfl, ?_⟩
      · intro c hc
        simp only [List.mem_cons] at hc
        rcases hc with rfl | rfl | rfl | hc
        · decide
        · decide
        · decide
        · exact digit_of_mem_cleanAfter1 (List.drop_subset _ _ hc)
      · simp [List.length_drop, h3.2]
    · refine ⟨by simp [specRules15Match, h4], fun _ => ?_, by simp⟩
      refine ⟨'9' :: '6' :: '6' :: cleanAfter1 l, rfl, ?_, rfl, ?_⟩
      · intro c hc
        simp only [List.mem_cons] at hc
        rcases hc with rfl | rfl | rfl | hc
        · decide
        · decide
        · decide
        · exact digit_of_mem_cleanAfter1 hc
      · simp [h4.2]
    · refine ⟨by simp [specRules15Match, h5], fun _ => ?_, by simp⟩
      refine ⟨cleanAfter1 l, rfl, fun c hc => digit_of_mem_cleanAfter1 hc, h5.1, h5.2⟩
    · exact absurd h6.1 (cleanAfter1_not_plus l)
    · refine ⟨?_, by simp, by simp⟩
      simp only [specRules15Match]
      constructor
      · intro h
        exact absurd h (by simp)
      · intro h
        rcases h with h | h | h | h
        · exact absurd h h2
        · exact absurd h h3
        · exact absurd h h4
        · exact absurd h h5

/-- Claim C1, counterexample: the input `"+966 50123456"` matches the spec's
rule 6 (the original starts with `+966` and is 13 characters long), yet
`normalize_saudi_mobile` returns the raw string with `valid = false`,
because its final branch tests the digit-stripped string for the `+966`
prefix. -/
theorem c1_spec_rule6_input_rejected :
    specRule6Match ("+966 50123456".toList)
    ∧ normalize_saudi_mobile ("+966 50123456".toList) = ("+966 50123456".toList, false) := by
  constructor
  · decide
  · decide

/-- Claim C1 (amended): `normalize_saudi_mobile` returns `valid = true`
exactly when the digit-stripped input matches rules 1-5 of spec §4.1, and
then the normalized result is `+966` followed by nine digits (13 characters);
on every other input — including strings matching only the spec's rule-6
condition, since the code tests the digit-stripped string for the `+966`
prefix — the original string comes back unchanged with `valid = false`
(so the empty input gives `("", false)`). -/
theorem c1_normalize_mobile_amended (l : List Char) :
    ((normalize_saudi_mobile l).2 = true ↔ specRules15Match l)
    ∧ ((normalize_saudi_mobile l).2 = true → plus966Shape (normalize_saudi_mobile l).1)
    ∧ ((normalize_saudi_mobile l).2 = false → (normalize_saudi_mobile l).1 = l) := by
  obtain ⟨h1, h2, h3⟩ := normalize_mobile_cases l
  refine ⟨h1, fun hv => ?_, h3⟩
  obtain ⟨t, ht, hdig, htake, hlen⟩ := h2 hv
  rw [ht]
  refine ⟨by simp [hlen], ?_, ?_⟩
  · show '+' :: t.take 3 = _
    rw [htake]
  · intro c hc
    exact hdig c (List.drop_subset 3 t hc)

/-- Claim C2: the rule-6 branch of `normalize_saudi_mobile` tests the
digit-stripped string, which can never contain `+`, so the branch is
unreachable: the condition is false for every input, and the rule-6 example
`"+966 50123456"` is rejected with the raw string returned. -/
theorem c2_rule6_branch_dead :
    normalize_saudi_mobile ("+966 50123456".toList) = ("+966 50123456".toList, false)
    ∧ ∀ l : List Char, decide (pyStartsWith (cleanAfter1 l) ['+', '9', '6', '6']) = false := by
  constructor
  · decide
  · intro l
    exact decide_eq_false (cleanAfter1_not_plus l)

/-- Claim C8: `normalize_saudi_mobile` is idempotent on valid outputs: when
it returns `valid = true`, renormalizing the returned normalized string
reproduces it (again with `valid = true`). -/
theorem c8_normalize_mobile_idempotent (l : List Char)
    (h : (normalize_saudi_mobile l).2 = true) :
    normalize_saudi_mobile ((normalize_saudi_mobile l).1) = ((normalize_saudi_mobile l).1, true) := by
  obtain ⟨t, ht, hdig, htake, hlen⟩ := (normalize_mobile_cases l).2.1 h
  rw [ht]
  have hfilter : stripNonDigits ('+' :: t) = t := by
    simp only [stripNonDigits, List.filter_cons]
    rw [show isDigitChar '+' = false from rfl]
    simp only [Bool.false_eq_true, if_false]
    exact List.filter_eq_self.mpr hdig
  have hclean : cleanAfter1 ('+' :: t) = t := by
    simp only [cleanAfter1, hfilter]
    rw [if_neg]
    intro hcon
    rw [hlen] at hcon
    exact absurd hcon.2 (by decide)
  simp only [normalize_saudi_mobile, hclean]
  rw [if_neg (by simp)]
  by_cases h4 : pyStartsWith t ['9', '6', '6', '5']
  · rw [if_pos ⟨h4, hlen⟩]
  · rw [if_neg (fun hc => h4 hc.1)]
    rw [if_neg (fun hc => by rw [hlen] at hc; exact absurd hc.2 (by decide))]
    rw [if_neg (fun hc => by rw [hlen] at hc; exact absurd hc.2 (by decide))]
    rw [if_pos ⟨htake, hlen⟩]

/-- Claim C8, witness: renormalizing the normalization of `"0501234567"`
returns it unchanged. -/
theorem c8_idempotent_witness :
    normalize_saudi_mobile ((normalize_saudi_mobile ("0501234567".toList)).1)
      = ((normalize_saudi_mobile ("0501234567".toList)).1, true) :=
  c8_normalize_mobile_idempotent ("0501234567".toList) (by decide)

/-- Claim C9: `normalize_email` trims and lowercases its input, is valid
exactly when the trimmed lowercased string holds exactly one `@`, and the
spec's three examples evaluate as stated (with `("", false)` on empty
input). -/
theorem c9_normalize_email :
    (∀ e : List Char, (normalize_email e).1 = pyLower (pyStrip e)
      ∧ ((normalize_email e).2 = true ↔ (pyLower (pyStrip e)).count '@' = 1))
    ∧ normalize_email ("Foo@Bar.COM".toList) = ("foo@bar.com".toList, true)
    ∧ normalize_email ("a@b@c".toList) = ("a@b@c".toList, false)
    ∧ normalize_email [] = ([], false) := by
  refine ⟨fun e => ?_, by decide, by decide, by decide⟩
  by_cases he : e = []
  · subst he
    exact ⟨by decide, by decide⟩
  · have hne : normalize_email e =
        (pyLower (pyStrip e),
          decide ('@' ∈ pyLower (pyStrip e) ∧ (pyLower (pyStrip e)).count '@' = 1)) := by
      simp only [normalize_email]
      rw [if_neg he]
    rw [hne]
    refine ⟨rfl, ?_⟩
    simp only [decide_eq_true_eq]
    constructor
    · exact fun h => h.2
    · intro h
      refine ⟨?_, h⟩
      have : 0 < (pyLower (pyStrip e)).count '@' := by omega
      exact List.count_pos_iff.mp this

lemma zipWith_map_same {α β γ : Type} (f : β → β → γ) (g h : α → β) :
    ∀ l : List α, List.zipWith f (l.map g) (l.map h) = l.map (fun x => f (g x) (h x))
  | [] => rfl
  | x :: xs => by
    simp only [List.map_cons, List.zipWith_cons_cons, zipWith_map_same f g h xs]

lemma count_true_map_not (m : List Bool) :
    (m.map (fun b => !b)).count true = m.count false := by
  induction m with
  | nil => rfl
  | cons b m ih =>
    cases b <;> simp [List.count_cons, ih]

lemma count_true_add_count_false : ∀ m : List Bool, m.count true + m.count false = m.length
  | [] => rfl
  | true :: m => by
    have ih := count_true_add_count_false m
    simp only [List.count_cons, List.length_cons]
    norm_num
    omega
  | false :: m => by
    have ih := count_true_add_count_false m
    simp only [List.count_cons, List.length_cons]
    norm_num
    omega

lemma selectMask_length (rows : List Row) (m : List Bool) (h : rows.length = m.length) :
    (selectMask rows m).length = m.count true := by
  induction rows generalizing m with
  | nil =>
    have : m = [] := by
      cases m
      · rfl
      · simp at h
    subst this
    rfl
  | cons r rows ih =>
    cases m with
    | nil => simp at h
    | cons b m =>
      simp only [List.length_cons, Nat.add_right_cancel_iff] at h
      cases b <;> simp [selectMask, List.zip_cons_cons, List.filterMap_cons, List.count_cons] <;>
        simpa [selectMask] using ih m h

/-- Claim C4: for every uploaded batch, the src/a.py duplicate-email
expression takes the `hasattr` branch (every pandas Series has `duplicated`),
that branch passes the misspelled keyword `Keep`, so the call raises
`TypeError` — the fallback with `keep=False` is never evaluated — and the
batch handler therefore fails before computing any summary counts. -/
theorem c4_dup_email_type_error (rows : List Row) :
    dup_email_expr_a (emailsN rows) = series_duplicated "Keep" (emailsN rows)
    ∧ dup_email_expr_a (emailsN rows) = Except.error PyErr.typeError
    ∧ batch_summary_a rows = Except.error PyErr.typeError := by
  have herr : dup_email_expr_a (emailsN rows) = Except.error PyErr.typeError := by
    unfold dup_email_expr_a hasattr_series_duplicated series_duplicated
    rw [if_pos rfl, if_neg (by decide)]
  refine ⟨rfl, herr, ?_⟩
  unfold batch_summary_a
  rw [herr]
  rfl

lemma zipWith_not_and_eq_map_not_or : ∀ xs ys : List Bool,
    List.zipWith (fun d i => !d && !i) xs ys = (List.zipWith or xs ys).map (fun b => !b)
  | [], _ => by simp
  | _ :: _, [] => by simp
  | x :: xs, y :: ys => by
    simp only [List.zipWith_cons_cons, List.map_cons, zipWith_not_and_eq_map_not_or xs ys]
    cases x <;> cases y <;> rfl

lemma excluded_mask_app_length (rows : List Row) :
    (excluded_mask_app rows).length = rows.length := by
  simp [excluded_mask_app, dup_mask_app, dup_mobile_app, dup_email_app, duplicatedKeepFalse,
    inv_mask, mobilesN, emailsN, List.length_zipWith]

lemma clean_mask_app_eq (rows : List Row) :
    clean_mask_app rows = (excluded_mask_app rows).map (fun b => !b) := by
  unfold clean_mask_app excluded_mask_app
  exact zipWith_not_and_eq_map_not_or _ _

/-- Claim C5: for every batch, the clean count plus the size of
`invalid ∪ duplicate` is the total row count — in src/app.py because
`clean_df` is the complement of the union, and in src/a.py because
`clean_count` is defined as total minus the size of the index union. -/
theorem c5_clean_plus_excluded (rows : List Row) :
    clean_count_app rows + (excluded_mask_app rows).count true = rows.length
    ∧ clean_count_a rows + excluded_count_a rows = rows.length := by
  constructor
  · have hlen : rows.length = (clean_mask_app rows).length := by
      rw [clean_mask_app_eq, List.length_map, excluded_mask_app_length]
    have h1 : clean_count_app rows = (clean_mask_app rows).count true :=
      selectMask_length rows _ hlen
    rw [h1, clean_mask_app_eq, count_true_map_not]
    have := count_true_add_count_false (excluded_mask_app rows)
    rw [← excluded_mask_app_length rows]
    omega
  · have hle : excluded_count_a rows ≤ rows.length := by
      unfold excluded_count_a
      calc (List.zipWith or (dup_mask_a rows) (inv_mask rows)).count true
          ≤ (List.zipWith or (dup_mask_a rows) (inv_mask rows)).length :=
            List.count_le_length _ _
        _ ≤ (inv_mask rows).length := by
            rw [List.length_zipWith]
            exact Nat.min_le_right _ _
        _ = rows.length := by simp [inv_mask]
    unfold clean_count_a
    omega

lemma decide_or_eq (p q : Prop) [Decidable p] [Decidable q] :
    (decide p || decide q) = decide (p ∨ q) := by
  by_cases hp : p <;> by_cases hq : q <;> simp [hp, hq]

lemma decide_and_eq (p q : Prop) [Decidable p] [Decidable q] :
    (decide p && decide q) = decide (p ∧ q) := by
  by_cases hp : p <;> by_cases hq : q <;> simp [hp, hq]

lemma bne_nil_eq_decide (l : List Char) : (!(l == [])) = decide (l ≠ []) := by
  cases l <;> simp

/-- Claim C3 (amended): in src/app.py the duplicate mask is the plain union
of the two collision sets with no non-emptiness requirement — a row is a
duplicate exactly when its normalized mobile or normalized email occurs at
least twice in the batch, the empty string included — while the filtered
union described by the claim is computed only by the src/a.py expression
(read with `keep=False` semantics; as written it raises, see C4). -/
theorem c3_duplicate_masks (rows : List Row) :
    dup_mask_app rows = rows.map (fun r =>
      decide (2 ≤ (mobilesN rows).count (normalize_saudi_mobile r.Mobile).1
        ∨ 2 ≤ (emailsN rows).count (normalize_email r.Email).1))
    ∧ dup_mask_a rows = rows.map (fun r =>
      decide ((2 ≤ (emailsN rows).count (normalize_email r.Email).1
            ∧ (normalize_email r.Email).1 ≠ [])
        ∨ (2 ≤ (mobilesN rows).count (normalize_saudi_mobile r.Mobile).1
            ∧ (normalize_saudi_mobile r.Mobile).1 ≠ []))) := by
  constructor
  · unfold dup_mask_app dup_mobile_app dup_email_app duplicatedKeepFalse
    simp only [mobilesN, emailsN, List.map_map, zipWith_map_same]
    apply List.map_congr_left
    intro r _
    simp only [Function.comp]
    rw [decide_or_eq]
  · unfold dup_mask_a dup_email_mask_a dup_mobile_mask_a duplicatedKeepFalse neEmptyMask
    simp only [mobilesN, emailsN, List.map_map, zipWith_map_same]
    apply List.map_congr_left
    intro r _
    simp only [Function.comp]
    rw [bne_nil_eq_decide, bne_nil_eq_decide, decide_and_eq, decide_and_eq, decide_or_eq]

/-- Claim C3, counterexample: in the two-row batch whose rows collide only on
the empty normalized mobile, src/app.py classifies both rows as duplicates,
while the filtered union the claim describes (the src/a.py expression) marks
neither. -/
theorem c3_empty_collision_counterexample :
    dup_mask_app emptyMobileBatch = [true, true]
    ∧ dup_mask_a emptyMobileBatch = [false, false] :=
  ⟨by decide, by decide⟩

/-- Claim C6 (amended): the batch generation loop of src/app.py produces one
person record per clean row and no others; on the spec §8 scenario the
summary is total=3, clean=0 (row A itself belongs to the email collision
set), invalid=1, duplicate=2, so in clean-only mode no per-record artifacts
are generated at all and the handler stops before building an archive. -/
theorem c6_clean_only_scenario :
    (∀ rows : List Row, (batch_persons_app rows).length = clean_count_app rows)
    ∧ scenario3.length = 3
    ∧ clean_count_app scenario3 = 0
    ∧ invalid_count_app scenario3 = 1
    ∧ duplicate_count_app scenario3 = 2
    ∧ batch_persons_app scenario3 = []
    ∧ zip_generated_app scenario3 = false := by
  refine ⟨fun rows => ?_, by decide, by decide, by decide, by decide, by decide, by decide⟩
  simp [batch_persons_app, clean_count_app]

/-- Claim C6, counterexample: on the spec §8 three-row scenario the computed
clean count is 0, not the claimed 1, and the clean-only generation loop
receives no records, so no artifact is generated for row A. -/
theorem c6_scenario_counterexample :
    clean_count_app scenario3 = 0 ∧ batch_persons_app scenario3 = [] :=
  ⟨by decide, by decide⟩

lemma subBadRuns_eq_collapse : ∀ l : List Char, subBadRuns l = collapseRunsAux false l
  | [] => rfl
  | [c] => by
    by_cases h : isAllowedRootChar c = true <;>
      simp [subBadRuns, collapseRunsAux, h]
  | c :: d :: cs => by
    have ih := subBadRuns_eq_collapse (d :: cs)
    by_cases hc : isAllowedRootChar c = true
    · simp [subBadRuns, collapseRunsAux, hc, ih]
    · by_cases hd : isAllowedRootChar d = true
      · simp only [subBadRuns, hc, hd, Bool.false_eq_true, if_false, if_true, ih]
        simp [collapseRunsAux, hc, hd]
      · simp only [subBadRuns, hc, hd, Bool.false_eq_true, if_false, ih]
        simp [collapseRunsAux, hc, hd]

/-- Claim C7: the root-name sanitizer of src/a.py line 628 / src/app.py line
631 agrees on every input with the sanitizer spelled out by the spec (§4.4):
keep `[A-Za-z0-9._-]`, collapse each run of other characters to one
underscore, strip edge underscores, default when empty — and the spec's
example prefix sanitizes as stated. -/
theorem c7_safe_root :
    (∀ name dflt : List Char, safe_root name dflt = safe_root_spec name dflt)
    ∧ safe_root ("Q1 Hires / 2024!".toList) ("Batch_Outputs_20240101".toList)
        = "Q1_Hires_2024".toList := by
  constructor
  · intro name dflt
    unfold safe_root safe_root_spec
    rw [subBadRuns_eq_collapse]
  · decide

lemma splitNl_append_cons : ∀ (l rest : List Char), '\n' ∉ l →
    splitNl (l ++ '\n' :: rest) = l :: splitNl rest
  | [], rest, _ => by simp [splitNl]
  | c :: cs, rest, h => by
    have hc : ¬ c = '\n' := by
      rintro rfl
      exact h (List.mem_cons_self _ _)
    have ih := splitNl_append_cons cs rest (fun m => h (List.mem_cons_of_mem _ m))
    simp only [List.cons_append, splitNl, List.append_eq, if_neg hc, ih]

lemma splitNl_no_newline : ∀ l : List Char, '\n' ∉ l → splitNl l = [l]
  | [], _ => rfl
  | c :: cs, h => by
    have hc : ¬ c = '\n' := by
      rintro rfl
      exact h (List.mem_cons_self _ _)
    have ih := splitNl_no_newline cs (fun m => h (List.mem_cons_of_mem _ m))
    simp only [splitNl, if_neg hc, ih]

lemma splitNl_joinNl : ∀ ls : List (List Char), ls ≠ [] → (∀ l ∈ ls, '\n' ∉ l) →
    splitNl (joinNl ls) = ls
  | [], h, _ => absurd rfl h
  | [l], _, hm => by
    simp only [joinNl]
    simp [splitNl_no_newline l (hm l (by simp))]
  | l :: l' :: ls, _, hm => by
    have ih := splitNl_joinNl (l' :: ls) (by simp)
      (fun x hx => hm x (List.mem_cons_of_mem _ hx))
    simp only [joinNl]
    rw [splitNl_append_cons l _ (hm l (by simp)), ih]

lemma vcard_eq_joinNl (p : Person) :
    vcard_from_person p = joinNl
      ["BEGIN:VCARD".toList, "VERSION:3.0".toList,
       "N:".toList ++ p.Last_Name ++ ";".toList ++ p.First_Name,
       "FN:".toList ++ p.First_Name ++ " ".toList ++ p.Last_Name,
       "ORG:".toList ++ p.Company,
       "TITLE:".toList ++ p.Role,
       "TEL;TYPE=CELL:".toList ++ p.Mobile,
       "EMAIL:".toList ++ p.Email,
       "URL:".toList ++ p.Website,
       "ADR;TYPE=WORK:".toList ++ p.Location,
       "NOTE:".toList ++ p.Notes,
       "END:VCARD".toList] := by
  simp only [vcard_from_person, joinNl]
  rw [show ("BEGIN:VCARD\nVERSION:3.0\nN:".toList : List Char)
      = "BEGIN:VCARD".toList ++ '\n' :: "VERSION:3.0".toList ++ '\n' :: "N:".toList by decide,
    show ("\nFN:".toList : List Char) = '\n' :: "FN:".toList by decide,
    show ("\nORG:".toList : List Char) = '\n' :: "ORG:".toList by decide,
    show ("\nTITLE:".toList : List Char) = '\n' :: "TITLE:".toList by decide,
    show ("\nTEL;TYPE=CELL:".toList : List Char) = '\n' :: "TEL;TYPE=CELL:".toList by decide,
    show ("\nEMAIL:".toList : List Char) = '\n' :: "EMAIL:".toList by decide,
    show ("\nURL:".toList : List Char) = '\n' :: "URL:".toList by decide,
    show ("\nADR;TYPE=WORK:".toList : List Char) = '\n' :: "ADR;TYPE=WORK:".toList by decide,
    show ("\nNOTE:".toList : List Char) = '\n' :: "NOTE:".toList by decide,
    show ("\nEND:VCARD".toList : List Char) = '\n' :: "END:VCARD".toList by decide]
  simp [List.append_assoc]

/-- Claim C10 (amended): the src/a.py `vcard_from_person` (identical in
src/app.py) emits, for every record with newline-free fields, exactly the
twelve lines `BEGIN:VCARD`, `VERSION:3.0`, then `N`, `FN`, `ORG`, `TITLE`,
`TEL;TYPE=CELL`, `EMAIL`, `URL`, `ADR;TYPE=WORK`, `NOTE` in that order —
each populated from the matching record field and kept with an empty value
when the field is empty — and `END:VCARD`; the src/app2.py variant instead
puts TITLE before ORG, omits optional lines when the field is empty, and has
no NOTE line at all. -/
theorem c10_vcard_lines (p : Person)
    (h1 : '\n' ∉ p.First_Name) (h2 : '\n' ∉ p.Last_Name) (h3 : '\n' ∉ p.Company)
    (h4 : '\n' ∉ p.Role) (h5 : '\n' ∉ p.Mobile) (h6 : '\n' ∉ p.Email)
    (h7 : '\n' ∉ p.Website) (h8 : '\n' ∉ p.Location) (h9 : '\n' ∉ p.Notes) :
    splitNl (vcard_from_person p) =
      ["BEGIN:VCARD".toList, "VERSION:3.0".toList,
       "N:".toList ++ p.Last_Name ++ ";".toList ++ p.First_Name,
       "FN:".toList ++ p.First_Name ++ " ".toList ++ p.Last_Name,
       "ORG:".toList ++ p.Company,
       "TITLE:".toList ++ p.Role,
       "TEL;TYPE=CELL:".toList ++ p.Mobile,
       "EMAIL:".toList ++ p.Email,
       "URL:".toList ++ p.Website,
       "ADR;TYPE=WORK:".toList ++ p.Location,
       "NOTE:".toList ++ p.Notes,
       "END:VCARD".toList] := by
  rw [vcard_eq_joinNl]
  apply splitNl_joinNl _ (by simp)
  intro l hl
  simp only [List.mem_cons, List.not_mem_nil, or_false] at hl
  rcases hl with rfl | rfl | rfl | rfl | rfl | rfl | rfl | rfl | rfl | rfl | rfl | rfl
  · decide
  · decide
  · simp only [List.mem_append, not_or]
    exact ⟨⟨⟨by decide, h2⟩, by decide⟩, h1⟩
  · simp only [List.mem_append, not_or]
    exact ⟨⟨⟨by decide, h1⟩, by decide⟩, h2⟩
  · simp only [List.mem_append, not_or]
    exact ⟨by decide, h3⟩
  · simp only [List.mem_append, not_or]
    exact ⟨by decide, h4⟩
  · simp only [List.mem_append, not_or]
    exact ⟨by decide, h5⟩
  · simp only [List.mem_append, not_or]
    exact ⟨by decide, h6⟩
  · simp only [List.mem_append, not_or]
    exact ⟨by decide, h7⟩
  · simp only [List.mem_append, not_or]
    exact ⟨by decide, h8⟩
  · simp only [List.mem_append, not_or]
    exact ⟨by decide, h9⟩
  · decide

/-- Claim C10, witness: the twelve lines of the vCard of a concrete fully
populated record. -/
theorem c10_vcard_lines_witness :
    splitNl (vcard_from_person vcardWitnessPerson) =
      ["BEGIN:VCARD".toList, "VERSION:3.0".toList,
       "N:".toList ++ vcardWitnessPerson.Last_Name ++ ";".toList ++ vcardWitnessPerson.First_Name,
       "FN:".toList ++ vcardWitnessPerson.First_Name ++ " ".toList ++ vcardWitnessPerson.Last_Name,
       "ORG:".toList ++ vcardWitnessPerson.Company,
       "TITLE:".toList ++ vcardWitnessPerson.Role,
       "TEL;TYPE=CELL:".toList ++ vcardWitnessPerson.Mobile,
       "EMAIL:".toList ++ vcardWitnessPerson.Email,
       "URL:".toList ++ vcardWitnessPerson.Website,
       "ADR;TYPE=WORK:".toList ++ vcardWitnessPerson.Location,
       "NOTE:".toList ++ vcardWitnessPerson.Notes,
       "END:VCARD".toList] :=
  c10_vcard_lines vcardWitnessPerson (by decide) (by decide) (by decide) (by decide)
    (by decide) (by decide) (by decide) (by decide) (by decide)

/-- Claim C10, counterexample: on a record whose Email is empty the
src/app2.py serializer emits no `EMAIL` line at all and never emits a `NOTE`
line, contradicting the claim that every field line is present (with an
empty value when the field is absent). -/
theorem c10_app2_omits_field_lines :
    (splitNl (vcard_from_person_app2 app2EmptyEmailPerson)).countP
        (fun l => decide (pyStartsWith l ("EMAIL".toList))) = 0
    ∧ (splitNl (vcard_from_person_app2 app2EmptyEmailPerson)).countP
        (fun l => decide (pyStartsWith l ("NOTE".toList))) = 0 :=
  ⟨by decide, by decide⟩

end AlraedahSuite
